import Mathlib

/-
Verification development for acb.py (ACB audio-container extractor).

The Python source (src/acb/acb.py) is shallowly embedded below:
- `AFSArchive` / `parseAFSArchive` embed the AFS2 sub-archive parser
  (`AFSArchive.__init__`, `_struct_format`, `create_file_entries`,
  `file_data_for_cue_id`);
- `buildTrackList` and friends embed `TrackList.__init__`;
- `ACBState` / `get_track_data` / `closeACB` embed the retrieval and
  resource-release behaviour of `ACBFile`.

Python integers are embedded as `Int`/`Nat` (they are arbitrary precision,
so no wraparound modelling is needed); Python bitwise operators on ints are
the two's-complement operations `Int.land` / `Int.lnot`.  Python exceptions
are embedded as `Except` with one constructor per distinct raise site.
-/

namespace Acb

/- ===================== SubArchive (class AFSArchive) ===================== -/

/-- Entry of an AFS2 archive: `afs2_file_ent_t = T(..., ("cue_id", "offset", "size"))`. -/
structure afs2_file_ent_t where
  cue_id : Int
  offset : Int
  size : Int
deriving DecidableEq, Repr

/-- Embeds `align(n)` (acb.py lines 135-139):
`lambda number: (number + n - 1) & ~(n - 1)` over Python ints. -/
def align (n : Int) (number : Int) : Int :=
  Int.land (number + n - 1) (Int.lnot (n - 1))

/-- Embeds `AFSArchive.create_file_entries` (acb.py lines 185-209) given the
already-decoded cue-id and raw-offset integer lists (the `struct` reads):
mask every raw offset, align each masked offset, derive each length as
`next unaligned offset - own aligned offset`, and zip with the cue ids.
Python's `zip` truncates to the shortest input, as `List.zip` does. -/
def create_file_entries (alignment : Int) (offset_mask : Int)
    (cue_ids : List Int) (raw_offs : List Int) : List afs2_file_ent_t :=
  let unaligned_offs := raw_offs.map (fun x => Int.land x offset_mask)
  let aligned_offs := unaligned_offs.map (align alignment)
  let offsets_for_length_calculating := unaligned_offs.drop 1
  let lengths := (aligned_offs.zip offsets_for_length_calculating).map
    (fun p => p.2 - p.1)
  ((cue_ids.zip aligned_offs).zip lengths).map
    (fun p => ⟨p.1.1, p.1.2, p.2⟩)

/-- Parsed `AFSArchive` object state (acb.py lines 145-176). `src` keeps the
underlying byte source, as `self.src = buf` does. -/
structure AFSArchive where
  alignment : Nat
  mix_key : Option Nat
  offset_size : Nat
  offset_mask : Nat
  files : List afs2_file_ent_t
  src : List Nat
deriving DecidableEq, Repr

/-- One constructor per distinct failure of `AFSArchive.__init__`:
`badMagic` for `raise ValueError("bad magic")`; `emptyMaskWidth` for the
`ValueError` raised by `int("FF" * 0, 16)` when the offset width is zero;
`badFieldSize` for `_struct_format`'s `ValueError`; `truncated` for reads
past the end of the byte source (`struct.error`). -/
inductive AFSError where
  | badMagic
  | emptyMaskWidth
  | badFieldSize (n : Nat)
  | truncated
deriving DecidableEq, Repr

/-- Reader state over the byte source.  Modelled from the spec: the reader
class `R` lives in acb/utf.py which is not part of the sources; the spec
describes it as a byte-seekable source read at a cursor. -/
structure RState where
  data : List Nat
  pos : Nat
deriving DecidableEq, Repr

/-- Modelled from the spec: read `n` bytes at the cursor, failing when the
source is exhausted (`R.bytes`; a short read surfaces as an error). -/
def rbytes (n : Nat) (s : RState) : Except AFSError (List Nat × RState) :=
  if s.pos + n ≤ s.data.length then
    .ok ((s.data.drop s.pos).take n, ⟨s.data, s.pos + n⟩)
  else
    .error .truncated

/-- Modelled from the spec: big-endian value of a byte string (`R.uint32_t`;
the AFS2 magic `0x41465332` is the tag "AFS2" read in this order). -/
def beVal (l : List Nat) : Nat :=
  l.foldl (fun acc b => acc * 256 + b) 0

/-- Modelled from the spec: little-endian value of a byte string
(`R.le_uint32_t`, `R.le_uint16_t`, and the `<`-prefixed `struct` formats). -/
def leVal (l : List Nat) : Nat :=
  l.foldr (fun b acc => b + 256 * acc) 0

/-- Embeds `AFSArchive._struct_format` (acb.py lines 178-183): width 2 maps
to format "H", width 4 to "I", anything else raises `ValueError`.  The model
returns the byte width the format letter stands for. -/
def struct_format (size : Nat) : Except AFSError Nat :=
  if size = 2 then .ok 2
  else if size = 4 then .ok 4
  else .error (.badFieldSize size)

/-- Reads `n` little-endian integers of byte width `w` from the cursor: the
`buf.struct(...)` calls of `create_file_entries` (acb.py lines 196-197). -/
def readLeInts (w : Nat) : Nat → RState → Except AFSError (List Int × RState)
  | 0, s => .ok ([], s)
  | n + 1, s => do
    let (b, s') ← rbytes w s
    let (rest, s'') ← readLeInts w n s'
    .ok (Int.ofNat (leVal b) :: rest, s'')

/-- Embeds the header part of `AFSArchive.__init__` (acb.py lines 150-169):
magic check, version tag, little-endian entry count, and alignment/mix-key
(new format when `version[0] >= 2`).  Returns
`(file_count, alignment, mix_key, offset_size, cue_id_size)` where
`offset_size = version[1]` and `cue_id_size = version[2]`. -/
def parseAFSHeader (data : List Nat) :
    Except AFSError (Nat × Nat × Option Nat × Nat × Nat) := do
  let s0 : RState := ⟨data, 0⟩
  let (m, s1) ← rbytes 4 s0
  if beVal m ≠ 0x41465332 then .error .badMagic else do
  let (version, s2) ← rbytes 4 s1
  let (fcb, s3) ← rbytes 4 s2
  let file_count := leVal fcb
  match version with
  | [v0, v1, v2, _v3] =>
    if v0 ≥ 2 then do
      let (ab, s4a) ← rbytes 2 s3
      let (mb, _s4b) ← rbytes 2 s4a
      .ok (file_count, leVal ab, some (leVal mb), v1, v2)
    else do
      let (ab, _s4a) ← rbytes 4 s3
      .ok (file_count, leVal ab, none, v1, v2)
  | _ => .error .truncated

/-- Embeds `AFSArchive.__init__` (acb.py lines 146-176) together with the
reading part of `create_file_entries` (lines 188-197): the header above,
then the offset mask `int("FF" * offset_size, 16)` (which is
`2^(8*offset_size) - 1` and raises on width 0), the two `_struct_format`
width checks (cue-id width first, as in line 190), the bulk reads after
`buf.seek(0x10)`, and the entry construction. -/
def parseAFSArchive (data : List Nat) : Except AFSError AFSArchive := do
  let (file_count, alignment, mix_key, offset_size, cue_id_size) ←
    parseAFSHeader data
  let offset_mask ←
    if offset_size = 0 then (.error .emptyMaskWidth : Except AFSError Nat)
    else .ok (2 ^ (8 * offset_size) - 1)
  let s5 : RState := ⟨data, 0x10⟩
  let wc ← struct_format cue_id_size
  let wo ← struct_format offset_size
  let (cue_ids, s6) ← readLeInts wc file_count s5
  let (raw_offs, _s7) ← readLeInts wo (file_count + 1) s6
  .ok { alignment := alignment
        mix_key := mix_key
        offset_size := offset_size
        offset_mask := offset_mask
        files := create_file_entries (Int.ofNat alignment)
          (Int.ofNat offset_mask) cue_ids raw_offs
        src := data }

/-- Reference computation for the entry list, written from the spec's words:
entry `i` (for `0 ≤ i < entry_count`) pairs the `i`-th ID with aligned
offset `alignUp(raw[i] & mask)` and length
`(raw[i+1] & mask) - alignUp(raw[i] & mask)`, the mask being
`(1 <<< (8*offset_width)) - 1` at the call site. -/
def referenceEntries (alignment : Int) (offset_mask : Int)
    (cue_ids : List Int) (raw_offs : List Int) : List afs2_file_ent_t :=
  (List.range cue_ids.length).map (fun i =>
    let u := fun j => Int.land (raw_offs.getD j 0) offset_mask
    let a := align alignment (u i)
    ⟨cue_ids.getD i 0, a, u (i + 1) - a⟩)

/-- Errors of the `ACBFile` layer, one constructor per `raise ValueError`
site of `get_track_data` and `file_data_for_cue_id` (all are `ValueError`
in the source; the spec's UsageError/NotFoundError classes).
`negativeCount` is the `ValueError("negative count")` that
`bytearray(f.size)` (acb.py line 215) raises when the entry's derived
length is negative. -/
inductive ACBError where
  | closedFile
  | noExternalAwb
  | noEmbeddedAwb
  | cueIdNotFound (cue_id : Int)
  | negativeCount
  | disarmRequestedWithoutKeys
deriving DecidableEq, Repr

/-- The scan loop of `AFSArchive.file_data_for_cue_id` (acb.py lines
212-213): walk `self.files` in list order, first entry whose `cue_id`
matches wins. -/
def findFileEnt : List afs2_file_ent_t → Int → Option afs2_file_ent_t
  | [], _ => none
  | f :: rest, cue_id =>
    if f.cue_id = cue_id then some f else findFileEnt rest cue_id

/-- Embeds `AFSArchive.file_data_for_cue_id` (acb.py lines 211-220), the
`rw=True` branch `get_track_data` uses: for the first matching entry,
`bytearray(f.size)` raises `ValueError("negative count")` when `f.size` is
negative, otherwise a fresh `f.size`-byte buffer is filled from absolute
offset `f.offset` (the read itself is modelled from the spec, `R.bytesinto`
being outside the sources; offsets produced by the parser are
nonnegative).  No match raises
`ValueError(f"id .. not found in archive")`. -/
def file_data_for_cue_id (ar : AFSArchive) (cue_id : Int) :
    Except ACBError (List Nat) :=
  match findFileEnt ar.files cue_id with
  | some f =>
    if f.size < 0 then .error .negativeCount
    else .ok ((ar.src.drop f.offset.toNat).take f.size.toNat)
  | none => .error (.cueIdNotFound cue_id)

/-- A 22-byte AFS2 image: magic "AFS2", version tag `[2, 2, 2, 0]` (new
format, 2-byte offsets, 2-byte ids), one file, alignment 1, mix key 0, cue
id 5, raw offsets 100 then 50 (out of order, so the derived length is
negative). -/
def c2Data : List Nat :=
  [0x41, 0x46, 0x53, 0x32, 2, 2, 2, 0, 1, 0, 0, 0, 1, 0, 0, 0,
   5, 0, 100, 0, 50, 0]

/-- What `AFSArchive.__init__` produces on `c2Data`. -/
def c2Archive : AFSArchive :=
  { alignment := 1, mix_key := some 0, offset_size := 2, offset_mask := 65535,
    files := [⟨5, 100, -50⟩], src := c2Data }

/-- A 16-byte AFS2 image whose version tag declares offset width 3 (byte 5):
the `_struct_format` check must reject it. -/
def c8WidthData : List Nat :=
  [0x41, 0x46, 0x53, 0x32, 2, 3, 2, 0, 0, 0, 0, 0, 1, 0, 0, 0]

/-- An archive with two entries sharing cue id 5: used to observe that the
lookup returns the first one in table order. -/
def c10Archive : AFSArchive :=
  { alignment := 1, mix_key := none, offset_size := 2, offset_mask := 65535,
    files := [⟨5, 0, 2⟩, ⟨5, 2, 2⟩], src := [10, 20, 30, 40] }

/- ===================== TrackCatalog (class TrackList) ===================== -/

/-- Embeds `track_t = T(..., ("cue_id", "name", "enc_type", "is_stream"))`. -/
structure track_t where
  cue_id : Int
  name : String
  enc_type : Nat
  is_stream : Bool
deriving DecidableEq, Repr

/-- A row of the cue table; the three fields `TrackList.__init__` reads
(`ReferenceType`, `NumRelatedWaveforms`, `ReferenceIndex`), assumed present
(a missing field would be a `KeyError` inside the black-box table reader). -/
structure CueRow where
  reference_type : Nat
  num_related_waveforms : Nat
  reference_index : Nat
deriving DecidableEq, Repr

/-- A row of the cue-name table (`CueIndex`, `CueName`). -/
structure CueNameRow where
  cue_index : Nat
  cue_name : String
deriving DecidableEq, Repr

/-- A row of the waveform table.  `Id` is fetched with `.get` (may be
absent); the other four fields are indexed directly. -/
structure WaveformRow where
  idField : Option Int
  memoryAwbId : Int
  streamAwbId : Int
  encodeType : Nat
  streaming : Bool
deriving DecidableEq, Repr

/-- A row of the synth table; `ReferenceItems` is a raw byte blob. -/
structure SynthRow where
  referenceItems : List Nat
deriving DecidableEq, Repr

/-- One constructor per raise site of `TrackList.__init__`:
`refTypeNotImplemented` for the `RuntimeError` (acb.py lines 103-106),
`synIndexOutOfRange` / `wavIndexOutOfRange` for the `IndexError` of
`syns.rows[wav_idx]` / `wavs.rows[b]`, `badReferenceItems` for
`struct.error` when `ReferenceItems` is not 4 bytes, and `missedWavs` for
the final `ValueError` (lines 129-132). -/
inductive TLError where
  | refTypeNotImplemented (t : Nat)
  | synIndexOutOfRange
  | wavIndexOutOfRange
  | badReferenceItems
  | missedWavs
deriving DecidableEq, Repr

/-- Embeds `struct.unpack(">HH", r_data)`: two big-endian 16-bit integers; fails
unless the blob is exactly 4 bytes. -/
def unpackHH (bs : List Nat) : Option (Nat × Nat) :=
  match bs with
  | [a0, a1, b0, b1] => some (a0 * 256 + a1, b0 * 256 + b1)
  | _ => none

/-- The `name_map` built from the cue-name table (acb.py lines 97-99):
later rows overwrite earlier ones, as Python dict assignment does. -/
def buildNameMap (nams : List CueNameRow) : Nat → Option String :=
  nams.foldl (fun m row k =>
    if k = row.cue_index then some row.cue_name else m k) (fun _ => none)

/-- Python's `f"{n:02}"` for a nonnegative int: decimal digits, left-padded
with `0` to a minimum width of 2. -/
def pad2 (n : Nat) : String :=
  if n < 10 then "0" ++ toString n else toString n

/-- The `track_t` appended for waveform `i` of a cue row (acb.py lines
112-127): id is `StreamAwbId` when `Streaming` else `Id` (falling back to
`MemoryAwbId`), and the name is the mapped cue name (default "UNKNOWN")
plus, only when the cue owns more than one waveform, the suffix
`f"_{i+1:02}"`. -/
def track_for (nameMap : Nat → Option String) (row : CueRow) (i : Nat)
    (w : WaveformRow) : track_t :=
  { cue_id := if w.streaming then w.streamAwbId else w.idField.getD w.memoryAwbId
    name := (nameMap row.reference_index).getD "UNKNOWN" ++
      (if row.num_related_waveforms = 1 then "" else "_" ++ pad2 (i + 1))
    enc_type := w.encodeType
    is_stream := w.streaming }

/-- The inner loop `for i in range(row["NumRelatedWaveforms"])` of
`TrackList.__init__` (acb.py lines 108-127): `i` is the loop counter, `k`
the remaining iterations, `w` the shared `wav_idx` cursor.  Each iteration
consumes synth row `w`, unpacks its `ReferenceItems`, uses the second
16-bit integer `b` to index the waveform table, and appends a track. -/
def runWaveforms (syns : List SynthRow) (wavs : List WaveformRow)
    (nameMap : Nat → Option String) (row : CueRow) :
    Nat → Nat → Nat → Except TLError (List track_t × Nat)
  | _, 0, w => .ok ([], w)
  | i, k + 1, w => do
    let sr ← match syns.get? w with
      | some sr => .ok sr
      | none => .error .synIndexOutOfRange
    let b ← match unpackHH sr.referenceItems with
      | some p => .ok p.2
      | none => .error .badReferenceItems
    let wr ← match wavs.get? b with
      | some wr => .ok wr
      | none => .error .wavIndexOutOfRange
    let (rest, w') ← runWaveforms syns wavs nameMap row (i + 1) k (w + 1)
    .ok (track_for nameMap row i wr :: rest, w')

/-- The outer loop `for row in cues.rows` of `TrackList.__init__` (acb.py
lines 102-127), threading the shared `wav_idx` cursor: reject any row whose
`ReferenceType` is not 3 or 8, then run the inner waveform loop. -/
def runCues (nameMap : Nat → Option String) (syns : List SynthRow)
    (wavs : List WaveformRow) :
    List CueRow → Nat → Except TLError (List track_t × Nat)
  | [], w => .ok ([], w)
  | row :: rest, w =>
    if ¬(row.reference_type = 3 ∨ row.reference_type = 8) then
      .error (.refTypeNotImplemented row.reference_type)
    else do
      let (ts, w') ← runWaveforms syns wavs nameMap row 0
        row.num_related_waveforms w
      let (ts', w'') ← runCues nameMap syns wavs rest w'
      .ok (ts ++ ts', w'')

/-- Embeds `TrackList.__init__` (acb.py lines 81-132) given the four
already-decoded tables: build the name map, run the cue loop from cursor 0,
then fail with `ValueError` when the waveform table has more rows than
tracks were produced. -/
def buildTrackList (cues : List CueRow) (nams : List CueNameRow)
    (syns : List SynthRow) (wavs : List WaveformRow) :
    Except TLError (List track_t) := do
  let (tracks, _) ← runCues (buildNameMap nams) syns wavs cues 0
  if wavs.length > tracks.length then .error .missedWavs
  else .ok tracks

/-- The name the spec prescribes for waveform `i` of a cue row. -/
def expectedName (nameMap : Nat → Option String) (row : CueRow) (i : Nat) :
    String :=
  (nameMap row.reference_index).getD "UNKNOWN" ++
    (if row.num_related_waveforms = 1 then "" else "_" ++ pad2 (i + 1))

/-- One cue row referencing two waveforms, reference type 3, cue index 0. -/
def c4Cues : List CueRow := [⟨3, 2, 0⟩]

/-- Two synth rows whose `ReferenceItems` select waveform rows 0 and 1. -/
def c4Syns : List SynthRow := [⟨[0, 0, 0, 0]⟩, ⟨[0, 0, 0, 1]⟩]

/-- Two non-streaming waveform rows with local ids 10 and 11. -/
def c4Wavs : List WaveformRow :=
  [⟨some 10, 0, 20, 2, false⟩, ⟨some 11, 0, 21, 2, false⟩]

/-- The tracks `TrackList.__init__` builds from `c4Cues`/`c4Syns`/`c4Wavs`
with an empty cue-name table. -/
def c4Tracks : List track_t :=
  [⟨10, "UNKNOWN_01", 2, false⟩, ⟨11, "UNKNOWN_02", 2, false⟩]

/- ================= ContainerFile (class ACBFile) ================= -/

/-- The mutable state of an `ACBFile` that `get_track_data` / `close` read
and write (acb.py lines 262-298): the closed flag, the two optional
SubArchives, whether HCA key material was supplied (`self.hca_keys`
truthiness), whether an external AWB handle exists (`self.awb_handle`
truthiness), and the two ownership flags set by `_get_file_obj`. -/
structure ACBState where
  closed : Bool
  embedded_awb : Option AFSArchive
  external_awb : Option AFSArchive
  hca_keys : Bool
  acb_handle_owned : Bool
  awb_handle : Bool
  awb_handle_owned : Bool
deriving DecidableEq, Repr

/-- Embeds `ACBFile.get_embedded_disarm` (acb.py lines 300-309) reduced to
context availability: a `DisarmContext` is constructed iff
`self.hca_keys and self.embedded_awb` is truthy (the lazily cached value is
a pure function of these two fields). -/
def get_embedded_disarm (s : ACBState) : Bool :=
  s.hca_keys && s.embedded_awb.isSome

/-- Embeds `ACBFile.get_external_disarm` (acb.py lines 311-319). -/
def get_external_disarm (s : ACBState) : Bool :=
  s.hca_keys && s.external_awb.isSome

/-- The tail of `ACBFile.get_track_data` (acb.py lines 357-370): the
`disarm` tri-state against the resolved context.  `transform` stands for
the external `disarmer.disarm(buf, not unmask)` call (it mutates `buf` in
place; here it returns the new buffer).  The second component of the result
counts how many times the transform was invoked. -/
def applyDisarm (transform : List Nat → Bool → List Nat) (hasCtx : Bool)
    (buf : List Nat) (disarm : Option Bool) (unmask : Bool) :
    Except ACBError (List Nat × Nat) :=
  if disarm = some true ∧ hasCtx = false then
    .error .disarmRequestedWithoutKeys
  else
    let d := match disarm with
      | none => hasCtx
      | some b => b
    if d && hasCtx then .ok (transform buf (!unmask), 1) else .ok (buf, 0)

/-- Embeds `ACBFile.get_track_data` (acb.py lines 321-370): refuse when
closed; pick the external archive for a streamed track and the embedded one
otherwise, failing when the required archive is absent; look up the track's
cue id; then apply the disarm tri-state. -/
def get_track_data (transform : List Nat → Bool → List Nat) (s : ACBState)
    (track : track_t) (disarm : Option Bool) (unmask : Bool) :
    Except ACBError (List Nat × Nat) :=
  if s.closed then .error .closedFile
  else if track.is_stream then
    match s.external_awb with
    | none => .error .noExternalAwb
    | some a => do
      let buf ← file_data_for_cue_id a track.cue_id
      applyDisarm transform (get_external_disarm s) buf disarm unmask
  else
    match s.embedded_awb with
    | none => .error .noEmbeddedAwb
    | some a => do
      let buf ← file_data_for_cue_id a track.cue_id
      applyDisarm transform (get_embedded_disarm s) buf disarm unmask

/-- The two underlying file objects an `ACBFile` may own. -/
inductive Handle where
  | acb
  | awb
deriving DecidableEq, Repr

/-- Embeds `ACBFile.close` (acb.py lines 378-391): close the acb handle iff
it is owned, close the awb handle iff it is owned and exists, clear both
ownership flags, set `closed`.  The second component lists the handles on
which `.close()` was actually called. -/
def closeACB (s : ACBState) : ACBState × List Handle :=
  let (s1, e1) :=
    if s.acb_handle_owned then
      ({ s with acb_handle_owned := false }, [Handle.acb])
    else (s, [])
  let (s2, e2) :=
    if s1.awb_handle_owned && s1.awb_handle then
      ({ s1 with awb_handle_owned := false }, [Handle.awb])
    else (s1, [])
  ({ s2 with closed := true }, e1 ++ e2)

/-- The chosen archive of `get_track_data`, per the `track.is_stream`
branch. -/
def chosenAwb (s : ACBState) (track : track_t) : Option AFSArchive :=
  if track.is_stream then s.external_awb else s.embedded_awb

/-- Evaluation rule for `align` on nonnegative arguments (the kernel cannot
reduce `Nat.ldiff`, so concrete instances go through this lemma and
`Nat.bitwise`). -/
theorem align_nat (n x : Nat) (h : 1 ≤ n) :
    align (n : Int) (x : Int) = (Nat.ldiff (x + n - 1) (n - 1) : Nat) := by
  unfold align
  have h1 : (x : Int) + (n : Int) - 1 = Int.ofNat (x + n - 1) := by
    simp only [Int.ofNat_eq_coe]; omega
  have h2 : (n : Int) - 1 = Int.ofNat (n - 1) := by
    simp only [Int.ofNat_eq_coe]; omega
  rw [h1, h2]
  rfl

theorem create_file_entries_cons (al m id o0 o1 : Int) (ids offs : List Int) :
    create_file_entries al m (id :: ids) (o0 :: o1 :: offs) =
      ⟨id, align al (Int.land o0 m),
        Int.land o1 m - align al (Int.land o0 m)⟩ ::
        create_file_entries al m ids (o1 :: offs) := rfl

theorem referenceEntries_cons (al m id o0 : Int) (ids offs : List Int) :
    referenceEntries al m (id :: ids) (o0 :: offs) =
      ⟨id, align al (Int.land o0 m),
        Int.land (offs.getD 0 0) m - align al (Int.land o0 m)⟩ ::
        referenceEntries al m ids offs := by
  simp [referenceEntries, List.range_succ_eq_map, List.map_map, Function.comp]

theorem create_file_entries_eq_referenceEntries (al m : Int) :
    ∀ (ids offs : List Int), offs.length = ids.length + 1 →
      create_file_entries al m ids offs = referenceEntries al m ids offs
  | [], _, _ => rfl
  | _ :: _, [], h => by simp at h
  | _ :: _, [_], h => by simp at h
  | id :: ids, o0 :: o1 :: offs, h => by
    rw [create_file_entries_cons, referenceEntries_cons]
    simp only [List.getD_cons_zero]
    rw [create_file_entries_eq_referenceEntries al m ids (o1 :: offs)
      (by simpa using h)]

theorem readLeInts_length (w : Nat) :
    ∀ (n : Nat) (s : RState) (xs : List Int) (s' : RState),
      readLeInts w n s = .ok (xs, s') → xs.length = n
  | 0, _, _, _, h => by
    simp only [readLeInts] at h
    cases h
    rfl
  | n + 1, s, xs, s', h => by
    simp only [readLeInts, bind, Except.bind] at h
    cases hb : rbytes w s with
    | error e => rw [hb] at h; cases h
    | ok p =>
      simp only [hb] at h
      cases hr : readLeInts w n p.2 with
      | error e => simp only [hr] at h; cases h
      | ok q =>
        simp only [hr] at h
        cases h
        simp [readLeInts_length w n p.2 q.1 q.2 hr]

theorem readLeInts_error (w : Nat) :
    ∀ (n : Nat) (s : RState) (e : AFSError),
      readLeInts w n s = .error e → e = .truncated
  | 0, _, _, h => by simp only [readLeInts] at h; cases h
  | n + 1, s, e, h => by
    simp only [readLeInts, bind, Except.bind] at h
    cases hb : rbytes w s with
    | error e' =>
      rw [hb] at h
      cases h
      simp only [rbytes] at hb
      split at hb
      · cases hb
      · cases hb; rfl
    | ok p =>
      simp only [hb] at h
      cases hr : readLeInts w n p.2 with
      | error e' =>
        simp only [hr, Except.error.injEq] at h
        subst h
        exact readLeInts_error w n p.2 e' hr
      | ok q => simp only [hr] at h; cases h

/-- Dissection of a successful parse: the stored mask is
`2^(8*offset_size) - 1`, the width is nonzero, and the entry list is
`create_file_entries` applied to id/offset lists with one extra offset. -/
theorem parseAFSArchive_ok_shape (data : List Nat) (ar : AFSArchive)
    (h : parseAFSArchive data = .ok ar) :
    ar.offset_mask = 2 ^ (8 * ar.offset_size) - 1 ∧
    ar.offset_size ≠ 0 ∧
    ∃ cue_ids raw_offs : List Int,
      raw_offs.length = cue_ids.length + 1 ∧
      ar.files = create_file_entries (Int.ofNat ar.alignment)
        (Int.ofNat ar.offset_mask) cue_ids raw_offs := by
  unfold parseAFSArchive at h
  simp only [bind, Except.bind] at h
  cases hh : parseAFSHeader data with
  | error e => rw [hh] at h; cases h
  | ok hdr =>
    obtain ⟨file_count, alignment, mix_key, offset_size, cue_id_size⟩ := hdr
    simp only [hh] at h
    by_cases hz : offset_size = 0
    · rw [if_pos hz] at h; cases h
    · rw [if_neg hz] at h
      cases hwc : struct_format cue_id_size with
      | error e => rw [hwc] at h; cases h
      | ok wc =>
        simp only [hwc] at h
        cases hwo : struct_format offset_size with
        | error e => rw [hwo] at h; cases h
        | ok wo =>
          simp only [hwo] at h
          cases hids : readLeInts wc file_count ⟨data, 0x10⟩ with
          | error e => rw [hids] at h; cases h
          | ok idsp =>
            simp only [hids] at h
            cases hoffs : readLeInts wo (file_count + 1) idsp.2 with
            | error e => rw [hoffs] at h; cases h
            | ok offsp =>
              simp only [hoffs] at h
              cases h
              refine ⟨rfl, hz, idsp.1, offsp.1, ?_, rfl⟩
              have h1 := readLeInts_length wc _ _ _ _
                (show readLeInts wc file_count ⟨data, 0x10⟩ =
                  .ok (idsp.1, idsp.2) from by rw [hids])
              have h2 := readLeInts_length wo _ _ _ _
                (show readLeInts wo (file_count + 1) idsp.2 =
                  .ok (offsp.1, offsp.2) from by rw [hoffs])
              omega

/-- C1: for every successfully parsed SubArchive the entry list equals the
reference computation: each of the `entry_count + 1` raw offsets is masked
with `(1 <<< (8*offset_width)) - 1`, each masked offset is rounded up to the
next multiple of `alignment` via `(x + alignment - 1) &&& ~(alignment - 1)`,
and entry `i` has offset `aligned_offset[i]` and length
`unaligned_offset[i+1] - aligned_offset[i]`, paired in order with the `i`-th
ID field. -/
theorem C1_entry_list_matches_reference (al m : Int) (ids offs : List Int)
    (h : offs.length = ids.length + 1) :
    create_file_entries al m ids offs = referenceEntries al m ids offs ∧
    ∀ (data : List Nat) (ar : AFSArchive), parseAFSArchive data = .ok ar →
      ∃ cue_ids raw_offs : List Int,
        raw_offs.length = cue_ids.length + 1 ∧
        ar.offset_mask = 2 ^ (8 * ar.offset_size) - 1 ∧
        ar.files = referenceEntries (Int.ofNat ar.alignment)
          (Int.ofNat ar.offset_mask) cue_ids raw_offs := by
  refine ⟨create_file_entries_eq_referenceEntries al m ids offs h, ?_⟩
  intro data ar hp
  obtain ⟨hm, _hz, cue_ids, raw_offs, hl, hf⟩ :=
    parseAFSArchive_ok_shape data ar hp
  exact ⟨cue_ids, raw_offs, hl, hm,
    by rw [hf, create_file_entries_eq_referenceEntries _ _ _ _ hl]⟩

theorem C1_witness :
    create_file_entries 32 65535 [7] [20, 60] =
      referenceEntries 32 65535 [7] [20, 60] :=
  (C1_entry_list_matches_reference 32 65535 [7] [20, 60] (by decide)).1

theorem c2_files_eval :
    create_file_entries 1 65535 [5] [100, 50] = [⟨5, 100, -50⟩] := by
  have e3 : align 1 (Int.land 100 65535) = 100 := by
    rw [show Int.land 100 65535 = ((100 : Nat) : Int) from by decide,
      show (1 : Int) = ((1 : Nat) : Int) from rfl, align_nat 1 100 (by decide)]
    norm_num [Nat.ldiff, Nat.bitwise]
  rw [create_file_entries_cons, e3]
  decide

theorem c2_parse_eval : parseAFSArchive c2Data = .ok c2Archive :=
  calc parseAFSArchive c2Data
      = .ok { alignment := 1, mix_key := some 0, offset_size := 2,
              offset_mask := 65535,
              files := create_file_entries 1 65535 [5] [100, 50],
              src := c2Data } := rfl
    _ = .ok c2Archive := by rw [c2_files_eval]; rfl

/-- C2 counterexample: parsing `c2Data` succeeds, yet the single entry has
length `-50 < 0` — the parser does not reject offsets that are out of
order, refuting "every entry of every successfully constructed SubArchive
has length >= 0". -/
theorem C2_counterexample :
    parseAFSArchive c2Data = .ok c2Archive ∧
    c2Archive.files = [⟨5, 100, -50⟩] ∧ ((-50 : Int) < 0) :=
  ⟨c2_parse_eval, rfl, by decide⟩

/-- C2 amended: SubArchive parsing performs no validation of derived entry
lengths; an input with `unaligned_offset[i+1] < aligned_offset[i]` is parsed
successfully and the entry keeps the negative length
`unaligned_offset[i+1] - aligned_offset[i]`. -/
theorem C2_amended_no_length_validation :
    parseAFSArchive c2Data = .ok c2Archive ∧
    c2Archive.files.map afs2_file_ent_t.size = [50 - 100] ∧
    c2Archive.files = create_file_entries 1 65535 [5] [100, 50] :=
  ⟨c2_parse_eval, by decide, c2_files_eval.symm⟩

theorem rbytes_ok (n : Nat) (s : RState) (h : s.pos + n ≤ s.data.length) :
    rbytes n s = .ok ((s.data.drop s.pos).take n, ⟨s.data, s.pos + n⟩) := by
  unfold rbytes
  rw [if_pos h]

theorem struct_format_ok (s : Nat) (h : s = 2 ∨ s = 4) :
    struct_format s = .ok s := by
  rcases h with h | h <;> subst h <;> rfl

theorem struct_format_bad (s : Nat) (h : ¬(s = 2 ∨ s = 4)) :
    struct_format s = .error (.badFieldSize s) := by
  unfold struct_format
  rw [if_neg (by tauto), if_neg (by tauto)]

/-- C8: SubArchive construction raises a format error on a magic mismatch;
it raises a format error whenever the offset-field width (second version
byte) or the ID-field width (third version byte) is not 2 or 4 — precisely
the `int("FF"*0, 16)` error for width 0 and `_struct_format`'s `ValueError`
otherwise, the cue-id width being checked first; and when the magic matches
and both widths are 2 or 4, construction proceeds past these checks: the
only error still possible is a truncated read. -/
theorem C8_magic_and_width_checks (data : List Nat) (fc al : Nat)
    (mk : Option Nat) (osz csz : Nat) :
    (4 ≤ data.length → beVal (data.take 4) ≠ 0x41465332 →
      parseAFSArchive data = .error .badMagic) ∧
    (parseAFSHeader data = .ok (fc, al, mk, osz, csz) →
      (¬(osz = 2 ∨ osz = 4) ∨ ¬(csz = 2 ∨ csz = 4)) →
      parseAFSArchive data = .error
        (if osz = 0 then .emptyMaskWidth
         else if ¬(csz = 2 ∨ csz = 4) then .badFieldSize csz
         else .badFieldSize osz)) ∧
    (parseAFSHeader data = .ok (fc, al, mk, osz, csz) →
      (osz = 2 ∨ osz = 4) → (csz = 2 ∨ csz = 4) →
      ∀ e, parseAFSArchive data = .error e → e = .truncated) := by
  refine ⟨?_, ?_, ?_⟩
  · intro h4 hm
    have hh : parseAFSHeader data = .error .badMagic := by
      unfold parseAFSHeader
      simp only [bind, Except.bind]
      rw [rbytes_ok 4 ⟨data, 0⟩ (by simpa using h4)]
      dsimp only
      rw [List.drop_zero, if_pos hm]
    unfold parseAFSArchive
    simp only [bind, Except.bind, hh]
  · intro hh hbad
    unfold parseAFSArchive
    simp only [bind, Except.bind, hh]
    by_cases h0 : osz = 0
    · rw [if_pos h0, if_pos h0]
    · rw [if_neg h0, if_neg h0]
      by_cases hc : csz = 2 ∨ csz = 4
      · have ho : ¬(osz = 2 ∨ osz = 4) := by tauto
        rw [struct_format_ok csz hc]
        dsimp only
        rw [struct_format_bad osz ho, if_neg (by tauto)]
      · rw [struct_format_bad csz hc, if_pos hc]
  · intro hh ho hc e he
    unfold parseAFSArchive at he
    simp only [bind, Except.bind, hh] at he
    rw [if_neg (by rcases ho with h | h <;> omega)] at he
    simp only [struct_format_ok csz hc, struct_format_ok osz ho] at he
    cases h1 : readLeInts csz fc ⟨data, 0x10⟩ with
    | error e1 =>
      rw [h1] at he
      cases he
      exact readLeInts_error csz fc ⟨data, 0x10⟩ _ h1
    | ok p =>
      simp only [h1] at he
      cases h2 : readLeInts osz (fc + 1) p.2 with
      | error e2 =>
        simp only [h2, Except.error.injEq] at he
        subst he
        exact readLeInts_error osz (fc + 1) p.2 _ h2
      | ok q => simp only [h2] at he; cases he

theorem C8_witness :
    parseAFSArchive [0, 0, 0, 0] = .error .badMagic ∧
    parseAFSArchive c8WidthData = .error (.badFieldSize 3) := by
  constructor
  · exact (C8_magic_and_width_checks [0, 0, 0, 0] 0 0 none 0 0).1
      (by decide) (by decide)
  · have h := (C8_magic_and_width_checks c8WidthData 0 1 (some 0) 3 2).2.1
      rfl (by decide)
    simpa using h

theorem findFileEnt_spec (cue_id : Int) :
    ∀ files : List afs2_file_ent_t,
      match findFileEnt files cue_id with
      | some f =>
          ∃ i, files.get? i = some f ∧ f.cue_id = cue_id ∧
            ∀ j, j < i → ∀ g, files.get? j = some g → g.cue_id ≠ cue_id
      | none => ∀ f ∈ files, f.cue_id ≠ cue_id
  | [] => by intro f hf; cases hf
  | f :: rest => by
    by_cases hf : f.cue_id = cue_id
    · simp only [findFileEnt, if_pos hf]
      exact ⟨0, rfl, hf, fun j hj => by omega⟩
    · simp only [findFileEnt, if_neg hf]
      have ih := findFileEnt_spec cue_id rest
      cases hrest : findFileEnt rest cue_id with
      | some g =>
        rw [hrest] at ih
        obtain ⟨i, hget, hcue, hprev⟩ := ih
        refine ⟨i + 1, by simpa using hget, hcue, ?_⟩
        intro j hj g' hg'
        cases j with
        | zero =>
          simp only [List.get?] at hg'
          cases hg'
          exact hf
        | succ j' =>
          exact hprev j' (by omega) g' (by simpa using hg')
      | none =>
        rw [hrest] at ih
        intro f' hf'
        rcases List.mem_cons.mp hf' with h | h
        · subst h; exact hf
        · exact ih f' h

/-- C10 counterexample: on the archive parsed from `c2Data` the requested
ID 5 does have a first matching entry, `⟨5, 100, -50⟩`, yet the read
returns no byte range: `bytearray(-50)` raises
`ValueError("negative count")` — refuting "the lookup/read operation
returns the byte range of the first entry whose ID matches". -/
theorem C10_counterexample :
    findFileEnt c2Archive.files 5 = some ⟨5, 100, -50⟩ ∧
    file_data_for_cue_id c2Archive 5 = .error .negativeCount :=
  ⟨rfl, rfl⟩

/-- C10 amended: the lookup selects the first entry in parsed table order
whose ID matches the requested cue id — later entries with the same ID are
never consulted; it returns that entry's byte range when the entry's
length is nonnegative and raises the negative-count error otherwise
(`bytearray(f.size)`), and raises a not-found error when no entry
matches. -/
theorem C10_lookup_first_match (ar : AFSArchive) (cue_id : Int) :
    match findFileEnt ar.files cue_id with
    | some f =>
        (0 ≤ f.size →
          file_data_for_cue_id ar cue_id =
            .ok ((ar.src.drop f.offset.toNat).take f.size.toNat)) ∧
        (f.size < 0 →
          file_data_for_cue_id ar cue_id = .error .negativeCount) ∧
        ∃ i, ar.files.get? i = some f ∧ f.cue_id = cue_id ∧
          ∀ j, j < i → ∀ g, ar.files.get? j = some g → g.cue_id ≠ cue_id
    | none =>
        file_data_for_cue_id ar cue_id = .error (.cueIdNotFound cue_id) ∧
        ∀ f ∈ ar.files, f.cue_id ≠ cue_id := by
  have h := findFileEnt_spec cue_id ar.files
  cases hfind : findFileEnt ar.files cue_id with
  | some f =>
    rw [hfind] at h
    refine ⟨?_, ?_, h⟩
    · intro hpos
      unfold file_data_for_cue_id
      simp only [hfind]
      rw [if_neg (by omega)]
    · intro hneg
      unfold file_data_for_cue_id
      simp only [hfind]
      rw [if_pos hneg]
  | none =>
    rw [hfind] at h
    exact ⟨by unfold file_data_for_cue_id; rw [hfind], h⟩

theorem C10_witness :
    file_data_for_cue_id c10Archive 5 = .ok [10, 20] :=
  (C10_lookup_first_match c10Archive 5).1 (by decide)

theorem runWaveforms_names (syns : List SynthRow) (wavs : List WaveformRow)
    (nm : Nat → Option String) (row : CueRow) :
    ∀ (k i w : Nat) (ts : List track_t) (w' : Nat),
      runWaveforms syns wavs nm row i k w = .ok (ts, w') →
      ts.map track_t.name =
        (List.range k).map (fun j => expectedName nm row (i + j))
  | 0, i, w, ts, w', h => by
    simp only [runWaveforms] at h
    cases h
    rfl
  | k + 1, i, w, ts, w', h => by
    simp only [runWaveforms, bind, Except.bind] at h
    cases hs : syns.get? w with
    | none => rw [hs] at h; cases h
    | some sr =>
      simp only [hs] at h
      cases hu : unpackHH sr.referenceItems with
      | none => simp only [hu] at h; cases h
      | some p =>
        simp only [hu] at h
        cases hw : wavs.get? p.2 with
        | none => simp only [hw] at h; cases h
        | some wr =>
          simp only [hw] at h
          cases hr : runWaveforms syns wavs nm row (i + 1) k (w + 1) with
          | error e => simp only [hr] at h; cases h
          | ok q =>
            simp only [hr] at h
            cases h
            have ih := runWaveforms_names syns wavs nm row k (i + 1) (w + 1)
              q.1 q.2 (by rw [hr])
            rw [List.range_succ_eq_map, List.map_cons, List.map_cons,
              List.map_map, ih]
            congr 1
            apply List.map_congr_left
            intro j _
            have hj : i + 1 + j = i + (j + 1) := by omega
            rw [hj]
            rfl
  termination_by k => k

theorem runCues_names (nm : Nat → Option String) (syns : List SynthRow)
    (wavs : List WaveformRow) :
    ∀ (cues : List CueRow) (w : Nat) (ts : List track_t) (w' : Nat),
      runCues nm syns wavs cues w = .ok (ts, w') →
      ts.map track_t.name = cues.flatMap (fun row =>
        (List.range row.num_related_waveforms).map (expectedName nm row))
  | [], w, ts, w', h => by
    simp only [runCues] at h
    cases h
    rfl
  | row :: rest, w, ts, w', h => by
    simp only [runCues, bind, Except.bind] at h
    split at h
    · cases h
    · cases h1 : runWaveforms syns wavs nm row 0 row.num_related_waveforms w with
      | error e => rw [h1] at h; cases h
      | ok p =>
        simp only [h1] at h
        cases h2 : runCues nm syns wavs rest p.2 with
        | error e => simp only [h2] at h; cases h
        | ok q =>
          simp only [h2] at h
          cases h
          have ihw := runWaveforms_names syns wavs nm row
            row.num_related_waveforms 0 w p.1 p.2 (by rw [h1])
          have ihc := runCues_names nm syns wavs rest p.2 q.1 q.2 (by rw [h2])
          simp only [List.map_append, List.flatMap_cons, ihw, ihc]
          congr 1
          apply List.map_congr_left
          intro j _
          rw [Nat.zero_add]

/-- C4: for every successfully built catalog, the produced names are, cue
row by cue row in table order, the mapped cue name (or "UNKNOWN" when the
reference index is absent from the name map) with no suffix when
`NumRelatedWaveforms = 1` and with suffixes `_01`, `_02`, ... in order
otherwise. -/
theorem C4_track_names (cues : List CueRow) (nams : List CueNameRow)
    (syns : List SynthRow) (wavs : List WaveformRow) (ts : List track_t)
    (h : buildTrackList cues nams syns wavs = .ok ts) :
    ts.map track_t.name = cues.flatMap (fun row =>
      (List.range row.num_related_waveforms).map
        (expectedName (buildNameMap nams) row)) := by
  unfold buildTrackList at h
  simp only [bind, Except.bind] at h
  cases hr : runCues (buildNameMap nams) syns wavs cues 0 with
  | error e => rw [hr] at h; cases h
  | ok p =>
    simp only [hr] at h
    split at h
    · cases h
    · cases h
      exact runCues_names (buildNameMap nams) syns wavs cues 0 p.1 p.2
        (by rw [hr])

theorem C4_witness :
    buildTrackList c4Cues [] c4Syns c4Wavs = .ok c4Tracks ∧
    c4Tracks.map track_t.name = ["UNKNOWN_01", "UNKNOWN_02"] := by
  have h0 : buildTrackList c4Cues [] c4Syns c4Wavs = .ok c4Tracks := rfl
  refine ⟨h0, ?_⟩
  rw [C4_track_names c4Cues [] c4Syns c4Wavs c4Tracks h0]
  rfl

theorem runCues_append (nm : Nat → Option String) (syns : List SynthRow)
    (wavs : List WaveformRow) :
    ∀ (l1 l2 : List CueRow) (w : Nat),
      runCues nm syns wavs (l1 ++ l2) w =
        match runCues nm syns wavs l1 w with
        | .error e => .error e
        | .ok (ts, w') =>
          match runCues nm syns wavs l2 w' with
          | .error e => .error e
          | .ok (ts2, w'') => .ok (ts ++ ts2, w'')
  | [], l2, w => by
    simp only [List.nil_append, runCues]
    cases h : runCues nm syns wavs l2 w with
    | error e => rfl
    | ok p => rfl
  | row :: l1, l2, w => by
    simp only [List.cons_append, runCues, bind, Except.bind]
    split
    · rfl
    · cases h1 : runWaveforms syns wavs nm row 0 row.num_related_waveforms w with
      | error e => rfl
      | ok p =>
        simp only [List.append_eq]
        rw [runCues_append nm syns wavs l1 l2 p.2]
        cases h2 : runCues nm syns wavs l1 p.2 with
        | error e => rfl
        | ok q =>
          simp only
          cases h3 : runCues nm syns wavs l2 q.2 with
          | error e => rfl
          | ok r => simp [List.append_assoc]

theorem runCues_ok_refType (nm : Nat → Option String) (syns : List SynthRow)
    (wavs : List WaveformRow) :
    ∀ (cues : List CueRow) (w : Nat) (p : List track_t × Nat),
      runCues nm syns wavs cues w = .ok p →
      ∀ row ∈ cues, row.reference_type = 3 ∨ row.reference_type = 8
  | [], _, _, _ => by intro _ hmem; cases hmem
  | row :: rest, w, p, h => by
    intro r hr
    simp only [runCues, bind, Except.bind] at h
    split at h
    · cases h
    · rcases List.mem_cons.mp hr with hEq | hmem
      · subst hEq
        by_contra hc
        exact absurd hc (by assumption)
      · cases h1 : runWaveforms syns wavs nm row 0
          row.num_related_waveforms w with
        | error e => rw [h1] at h; cases h
        | ok q =>
          simp only [h1] at h
          cases h2 : runCues nm syns wavs rest q.2 with
          | error e => simp only [h2] at h; cases h
          | ok q2 =>
            exact runCues_ok_refType nm syns wavs rest q.2 q2 h2 r hmem

/-- C5: whenever some cue row's `ReferenceType` is outside {3, 8}, catalog
construction cannot succeed; and when the loop reaches that row (the rows
before it process without error), construction fails with exactly the
`RuntimeError("ReferenceType .. not implemented.")`. -/
theorem C5_reference_type_check (cues : List CueRow) (nams : List CueNameRow)
    (syns : List SynthRow) (wavs : List WaveformRow) (k : Nat) (row : CueRow)
    (hr : cues.get? k = some row)
    (hbad : ¬(row.reference_type = 3 ∨ row.reference_type = 8)) :
    (∀ ts, buildTrackList cues nams syns wavs ≠ .ok ts) ∧
    (∀ p, runCues (buildNameMap nams) syns wavs (cues.take k) 0 = .ok p →
      buildTrackList cues nams syns wavs =
        .error (.refTypeNotImplemented row.reference_type)) := by
  constructor
  · intro ts hok
    unfold buildTrackList at hok
    simp only [bind, Except.bind] at hok
    cases hrc : runCues (buildNameMap nams) syns wavs cues 0 with
    | error e => rw [hrc] at hok; cases hok
    | ok p =>
      exact hbad (runCues_ok_refType (buildNameMap nams) syns wavs cues 0 p
        hrc row (List.get?_mem hr))
  · intro p hp
    have hlt : k < cues.length := (List.get?_eq_some.mp hr).1
    have hget : cues.get ⟨k, hlt⟩ = row := (List.get?_eq_some.mp hr).2
    have hdrop : cues.drop k = row :: cues.drop (k + 1) := by
      rw [List.drop_eq_getElem_cons hlt, ← hget]
      rfl
    have hcues : cues = cues.take k ++ (row :: cues.drop (k + 1)) := by
      rw [← hdrop, List.take_append_drop]
    have hrun : runCues (buildNameMap nams) syns wavs cues 0 =
        .error (.refTypeNotImplemented row.reference_type) := by
      conv at hcues => rfl
      rw [hcues, runCues_append (buildNameMap nams) syns wavs, hp]
      simp only [runCues, if_pos hbad]
    unfold buildTrackList
    simp only [bind, Except.bind, hrun]

theorem C5_witness :
    buildTrackList [⟨5, 1, 0⟩] [] [] [] =
      .error (.refTypeNotImplemented 5) :=
  (C5_reference_type_check [⟨5, 1, 0⟩] [] [] [] 0 ⟨5, 1, 0⟩ rfl
    (by decide)).2 ([], 0) rfl

/-- C6: once the cue loop has finished, catalog construction fails with the
consistency error exactly when the waveform table has strictly more rows
than tracks were produced; otherwise it returns the full track list. -/
theorem C6_missed_wavs_check (cues : List CueRow) (nams : List CueNameRow)
    (syns : List SynthRow) (wavs : List WaveformRow) (ts : List track_t)
    (w' : Nat)
    (h : runCues (buildNameMap nams) syns wavs cues 0 = .ok (ts, w')) :
    (buildTrackList cues nams syns wavs = .error .missedWavs ↔
      ts.length < wavs.length) ∧
    (wavs.length ≤ ts.length → buildTrackList cues nams syns wavs = .ok ts) := by
  unfold buildTrackList
  simp only [bind, Except.bind, h]
  by_cases hgt : wavs.length > ts.length
  · rw [if_pos hgt]
    exact ⟨⟨fun _ => hgt, fun _ => rfl⟩, fun hle => absurd hgt (by omega)⟩
  · rw [if_neg hgt]
    refine ⟨⟨fun he => ?_, fun hlt => absurd hlt hgt⟩, fun _ => rfl⟩
    cases he

theorem C6_witness : buildTrackList [] [] [] [] = .ok [] :=
  (C6_missed_wavs_check [] [] [] [] [] 0 rfl).2 (by decide)

theorem get_track_data_eq (transform : List Nat → Bool → List Nat)
    (s : ACBState) (track : track_t) (a : AFSArchive) (d : Option Bool)
    (u : Bool) (hopen : s.closed = false)
    (harch : chosenAwb s track = some a) :
    get_track_data transform s track d u =
      match file_data_for_cue_id a track.cue_id with
      | .error e => .error e
      | .ok buf => applyDisarm transform s.hca_keys buf d u := by
  unfold chosenAwb at harch
  unfold get_track_data
  cases hstream : track.is_stream with
  | true =>
    rw [hstream] at harch
    have harch' : s.external_awb = some a := by simpa using harch
    simp only [hopen, Bool.false_eq_true, if_false, hstream, if_pos rfl,
      harch', get_external_disarm, Option.isSome_some, Bool.and_true,
      bind, Except.bind]
    cases hf : file_data_for_cue_id a track.cue_id <;> simp [hf]
  | false =>
    rw [hstream] at harch
    have harch' : s.embedded_awb = some a := by simpa using harch
    simp only [hopen, Bool.false_eq_true, if_false, hstream,
      harch', get_embedded_disarm, Option.isSome_some, Bool.and_true,
      bind, Except.bind]
    cases hf : file_data_for_cue_id a track.cue_id <;> simp [hf]

theorem applyDisarm_count (transform : List Nat → Bool → List Nat)
    (hasCtx : Bool) (buf : List Nat) (d : Option Bool) (u : Bool)
    (r : List Nat) (n : Nat)
    (h : applyDisarm transform hasCtx buf d u = .ok (r, n)) : n ≤ 1 := by
  unfold applyDisarm at h
  split at h
  · cases h
  · dsimp only at h
    split at h <;> (cases h; omega)

/-- C3: with the chosen archive present and the lookup succeeding,
`disarm=True` without key material raises the usage error; `disarm=False`
returns the looked-up bytes untransformed even when key material is
present; `disarm=None` applies the transform exactly when a context is
available (keys supplied), invoking it exactly once; and no call path
invokes the transform more than once. -/
theorem C3_disarm_tristate (transform : List Nat → Bool → List Nat)
    (s : ACBState) (track : track_t) (a : AFSArchive) (buf : List Nat)
    (u : Bool) (hopen : s.closed = false)
    (harch : chosenAwb s track = some a)
    (hbuf : file_data_for_cue_id a track.cue_id = .ok buf) :
    (s.hca_keys = false →
      get_track_data transform s track (some true) u =
        .error .disarmRequestedWithoutKeys) ∧
    (get_track_data transform s track (some false) u = .ok (buf, 0)) ∧
    (get_track_data transform s track none u =
      if s.hca_keys then .ok (transform buf (!u), 1) else .ok (buf, 0)) ∧
    (∀ d r n, get_track_data transform s track d u = .ok (r, n) → n ≤ 1) := by
  refine ⟨?_, ?_, ?_, ?_⟩
  · intro hk
    rw [get_track_data_eq transform s track a (some true) u hopen harch]
    simp [hbuf, applyDisarm, hk]
  · rw [get_track_data_eq transform s track a (some false) u hopen harch]
    simp [hbuf, applyDisarm]
  · rw [get_track_data_eq transform s track a none u hopen harch]
    simp only [hbuf]
    cases hk : s.hca_keys <;> simp [applyDisarm, hk]
  · intro d r n h
    rw [get_track_data_eq transform s track a d u hopen harch] at h
    simp only [hbuf] at h
    exact applyDisarm_count transform s.hca_keys buf d u r n h

theorem C3_witness :
    get_track_data (fun b _ => b.map (· + 1))
        ⟨false, some c10Archive, none, false, false, false, false⟩
        ⟨5, "X", 2, false⟩ (some true) true =
      .error .disarmRequestedWithoutKeys ∧
    get_track_data (fun b _ => b.map (· + 1))
        ⟨false, some c10Archive, none, false, false, false, false⟩
        ⟨5, "X", 2, false⟩ (some false) true = .ok ([10, 20], 0) := by
  constructor
  · exact (C3_disarm_tristate (fun b _ => b.map (· + 1))
      ⟨false, some c10Archive, none, false, false, false, false⟩
      ⟨5, "X", 2, false⟩ c10Archive [10, 20] true rfl rfl rfl).1 rfl
  · exact (C3_disarm_tristate (fun b _ => b.map (· + 1))
      ⟨false, some c10Archive, none, false, false, false, false⟩
      ⟨5, "X", 2, false⟩ c10Archive [10, 20] true rfl rfl rfl).2.1

/-- C7: `get_track_data` selects the external SubArchive when the
descriptor's stream flag is set and the embedded one otherwise; when the
required archive is absent it raises the usage error regardless of the
track's cue id (so before any lookup could happen), and when present the
result is exactly the lookup in that archive. -/
theorem C7_archive_selection (transform : List Nat → Bool → List Nat)
    (s : ACBState) (track : track_t) (d : Option Bool) (u : Bool)
    (a : AFSArchive) (hopen : s.closed = false) :
    (track.is_stream = true → s.external_awb = none →
      get_track_data transform s track d u = .error .noExternalAwb) ∧
    (track.is_stream = false → s.embedded_awb = none →
      get_track_data transform s track d u = .error .noEmbeddedAwb) ∧
    (track.is_stream = true → s.external_awb = some a →
      get_track_data transform s track (some false) u =
        (file_data_for_cue_id a track.cue_id).map (fun b => (b, 0))) ∧
    (track.is_stream = false → s.embedded_awb = some a →
      get_track_data transform s track (some false) u =
        (file_data_for_cue_id a track.cue_id).map (fun b => (b, 0))) := by
  refine ⟨?_, ?_, ?_, ?_⟩
  · intro hstream hext
    unfold get_track_data
    simp [hopen, hstream, hext]
  · intro hstream hemb
    unfold get_track_data
    simp [hopen, hstream, hemb]
  · intro hstream hext
    rw [get_track_data_eq transform s track a (some false) u hopen
      (by unfold chosenAwb; simp [hstream, hext])]
    cases hf : file_data_for_cue_id a track.cue_id with
    | error e => simp [hf, Except.map]
    | ok buf => simp [hf, applyDisarm, Except.map]
  · intro hstream hemb
    rw [get_track_data_eq transform s track a (some false) u hopen
      (by unfold chosenAwb; simp [hstream, hemb])]
    cases hf : file_data_for_cue_id a track.cue_id with
    | error e => simp [hf, Except.map]
    | ok buf => simp [hf, applyDisarm, Except.map]

theorem C7_witness :
    get_track_data (fun b _ => b)
        ⟨false, none, none, true, false, false, false⟩
        ⟨5, "X", 2, true⟩ none true = .error .noExternalAwb ∧
    get_track_data (fun b _ => b)
        ⟨false, none, some c10Archive, true, false, false, false⟩
        ⟨7, "X", 2, true⟩ (some false) true = .error (.cueIdNotFound 7) := by
  constructor
  · exact (C7_archive_selection (fun b _ => b)
      ⟨false, none, none, true, false, false, false⟩
      ⟨5, "X", 2, true⟩ none true c10Archive rfl).1 rfl rfl
  · have h := (C7_archive_selection (fun b _ => b)
      ⟨false, none, some c10Archive, true, false, false, false⟩
      ⟨7, "X", 2, true⟩ (some false) true c10Archive rfl).2.2.1 rfl rfl
    simpa using h

/-- C9: `close` is idempotent and total: a second call returns the same
state and releases no handle; after the first call the container is closed
and every `get_track_data` raises the closed-file usage error; and the
handles released are exactly those the object owns (only sources the
object itself opened are ever closed). -/
theorem C9_close_idempotent (s : ACBState) :
    closeACB (closeACB s).1 = ((closeACB s).1, []) ∧
    (closeACB s).1.closed = true ∧
    (∀ (transform : List Nat → Bool → List Nat) (track : track_t)
      (d : Option Bool) (u : Bool),
      get_track_data transform (closeACB s).1 track d u =
        .error .closedFile) ∧
    (closeACB s).2 =
      (if s.acb_handle_owned then [Handle.acb] else []) ++
      (if s.awb_handle_owned && s.awb_handle then [Handle.awb] else []) := by
  obtain ⟨c, emb, ext, k, ao, ah, awo⟩ := s
  refine ⟨?_, ?_, ?_, ?_⟩
  · cases ao <;> cases ah <;> cases awo <;> rfl
  · cases ao <;> cases ah <;> cases awo <;> rfl
  · intro transform track d u
    have hclosed : (closeACB ⟨c, emb, ext, k, ao, ah, awo⟩).1.closed = true := by
      cases ao <;> cases ah <;> cases awo <;> rfl
    unfold get_track_data
    simp [hclosed]
  · cases ao <;> cases ah <;> cases awo <;> rfl

end Acb
